import Mathlib

/-!
Verification of the barcode-scanner decoder core.

The embedding mirrors `src/lib.rs`: the key table `key_to_str`, the
per-event modifier tracking and character emission in
`BarcodeScanner::read`, the newline scan of the line buffer
(`find` / `drain` / `pop`), and the fetch loop.  The external event
source is modelled as a list of fetch results (a successful batch of
input events, or a device error); an exhausted list models a source
that blocks with no further events available.
-/

/-- Physical key identifiers relevant to the decoder (`evdev::Key`).
`KEY_OTHER n` stands for any key code outside the recognized set. -/
inductive Key where
  | KEY_1 | KEY_2 | KEY_3 | KEY_4 | KEY_5
  | KEY_6 | KEY_7 | KEY_8 | KEY_9 | KEY_0
  | KEY_A | KEY_B | KEY_C | KEY_D | KEY_E | KEY_F | KEY_G
  | KEY_H | KEY_I | KEY_J | KEY_K | KEY_L | KEY_M | KEY_N
  | KEY_O | KEY_P | KEY_Q | KEY_R | KEY_S | KEY_T | KEY_U
  | KEY_V | KEY_W | KEY_X | KEY_Y | KEY_Z
  | KEY_SPACE | KEY_TAB | KEY_APOSTROPHE | KEY_EQUAL | KEY_COMMA
  | KEY_MINUS | KEY_DOT | KEY_SLASH | KEY_BACKSLASH | KEY_SEMICOLON
  | KEY_LEFTBRACE | KEY_RIGHTBRACE | KEY_GRAVE
  | KEY_KPENTER | KEY_ENTER
  | KEY_LEFTSHIFT | KEY_RIGHTSHIFT | KEY_CAPSLOCK
  | KEY_OTHER (code : Nat)

/-- Event types (`evdev::EventType`); the decoder only looks at KEY events. -/
inductive EventType where
  | KEY
  | OTHER
  deriving DecidableEq

/-- One raw input event: event type, key code, and integer value
(1 = pressed, 0 = released, 2 = key-repeat, etc.). -/
structure InputEvent where
  event_type : EventType
  code : Key
  value : Int

/-- The modifier-tracking locals of `BarcodeScanner::read`. -/
structure ModState where
  left_shift_pressed : Bool
  right_shift_pressed : Bool
  capslock_on : Bool

/-- All modifiers false, as the locals are initialized in `read`. -/
def initMod : ModState :=
  { left_shift_pressed := false, right_shift_pressed := false, capslock_on := false }

/-- The unshifted/shifted character pair for a key, when the key is in the
table of `key_to_str` (`_ => return None` for everything else). -/
def keyPair : Key → Option (Char × Char)
  | Key.KEY_1 => some ('1', '!')
  | Key.KEY_2 => some ('2', '@')
  | Key.KEY_3 => some ('3', '#')
  | Key.KEY_4 => some ('4', '$')
  | Key.KEY_5 => some ('5', '%')
  | Key.KEY_6 => some ('6', '^')
  | Key.KEY_7 => some ('7', '&')
  | Key.KEY_8 => some ('8', '*')
  | Key.KEY_9 => some ('9', '(')
  | Key.KEY_0 => some ('0', ')')
  | Key.KEY_A => some ('a', 'A')
  | Key.KEY_B => some ('b', 'B')
  | Key.KEY_C => some ('c', 'C')
  | Key.KEY_D => some ('d', 'D')
  | Key.KEY_E => some ('e', 'E')
  | Key.KEY_F => some ('f', 'F')
  | Key.KEY_G => some ('g', 'G')
  | Key.KEY_H => some ('h', 'H')
  | Key.KEY_I => some ('i', 'I')
  | Key.KEY_J => some ('j', 'J')
  | Key.KEY_K => some ('k', 'K')
  | Key.KEY_L => some ('l', 'L')
  | Key.KEY_M => some ('m', 'M')
  | Key.KEY_N => some ('n', 'N')
  | Key.KEY_O => some ('o', 'O')
  | Key.KEY_P => some ('p', 'P')
  | Key.KEY_Q => some ('q', 'Q')
  | Key.KEY_R => some ('r', 'R')
  | Key.KEY_S => some ('s', 'S')
  | Key.KEY_T => some ('t', 'T')
  | Key.KEY_U => some ('u', 'U')
  | Key.KEY_V => some ('v', 'V')
  | Key.KEY_W => some ('w', 'W')
  | Key.KEY_X => some ('x', 'X')
  | Key.KEY_Y => some ('y', 'Y')
  | Key.KEY_Z => some ('z', 'Z')
  | Key.KEY_SPACE => some (' ', ' ')
  | Key.KEY_TAB => some ('\t', '\t')
  | Key.KEY_APOSTROPHE => some ('\'', '"')
  | Key.KEY_EQUAL => some ('=', '+')
  | Key.KEY_COMMA => some (',', '<')
  | Key.KEY_MINUS => some ('-', '_')
  | Key.KEY_DOT => some ('.', '>')
  | Key.KEY_SLASH => some ('/', '?')
  | Key.KEY_BACKSLASH => some ('\\', '|')
  | Key.KEY_SEMICOLON => some (';', ':')
  | Key.KEY_LEFTBRACE => some ('[', '{')
  | Key.KEY_RIGHTBRACE => some (']', '}')
  | Key.KEY_GRAVE => some ('`', '~')
  | Key.KEY_KPENTER => some ('\n', '\n')
  | Key.KEY_ENTER => some ('\n', '\n')
  | _ => none

/-- `key_to_str` from `src/lib.rs`: look the key up in the table and pick
the shifted entry iff `capital` is set. -/
def key_to_str (key : Key) (capital : Bool) : Option Char :=
  match keyPair key with
  | none => none
  | some char => if capital then some char.2 else some char.1

/-- The effective-capital flag computed at the `key_to_str` call site:
`left_shift_pressed || right_shift_pressed || capslock_on`. -/
def effectiveCapital (ms : ModState) : Bool :=
  ms.left_shift_pressed || ms.right_shift_pressed || ms.capslock_on

/-- The body of the per-event `for` loop in `BarcodeScanner::read`:
update the modifier locals, then, on a press (value 1), map the key and
append any resulting character to the buffer. -/
def processEvent (s : ModState × List Char) (event : InputEvent) : ModState × List Char :=
  if event.event_type = EventType.KEY then
    let ms :=
      match event.code with
      | Key.KEY_LEFTSHIFT => { s.1 with left_shift_pressed := event.value = 1 }
      | Key.KEY_RIGHTSHIFT => { s.1 with right_shift_pressed := event.value = 1 }
      | Key.KEY_CAPSLOCK => { s.1 with capslock_on := event.value = 1 }
      | _ => s.1
    let buffer :=
      if event.value = 1 then
        match key_to_str event.code (effectiveCapital ms) with
        | some c => s.2 ++ [c]
        | none => s.2
      else s.2
    (ms, buffer)
  else s

/-- Fold the event loop over a batch from a given modifier state and buffer. -/
def processEvents (ms : ModState) (buffer : List Char) (events : List InputEvent) :
    ModState × List Char :=
  events.foldl processEvent (ms, buffer)

/-- One iteration of the batch loop: the modifier locals are declared
inside the `loop`, so every batch starts from all-false modifiers. -/
def processBatch (buffer : List Char) (events : List InputEvent) : List Char :=
  (processEvents initMod buffer events).2

/-- The post-batch terminator scan: `self.buffer.find('\n')`, then
`drain(..index + 1).collect()` followed by `pop()`.  Returns the barcode
and the remaining buffer when a newline is present. -/
def scanBuffer (buffer : List Char) : Option (List Char × List Char) :=
  match buffer.findIdx? (fun c => c = '\n') with
  | some index =>
      let drained := buffer.take (index + 1)
      some (drained.dropLast, buffer.drop (index + 1))
  | none => none

/-- One fetch from the event source: a batch of events, or a device error. -/
inductive FetchResult where
  | ok (events : List InputEvent)
  | err (msg : String)

/-- Outcome of a `read` call over a finite event source: a barcode together
with the post-state (leftover buffer and unconsumed fetches), a propagated
device error with the buffer at the point of failure, or a decoder still
blocked waiting on the source with the given buffer. -/
inductive ReadOutcome where
  | ok (barcode : List Char) (buffer : List Char) (rest : List FetchResult)
  | fail (msg : String) (buffer : List Char)
  | blocked (buffer : List Char)

/-- `BarcodeScanner::read`: loop fetching a batch, processing its events,
then scanning the buffer for a newline; return the barcode when one is
found, propagate a fetch error immediately, and block when the source has
nothing more to offer. -/
def read : List FetchResult → List Char → ReadOutcome
  | [], buffer => ReadOutcome.blocked buffer
  | FetchResult.err e :: _, buffer =>
      ReadOutcome.fail ("Failed to fetch events from input device: " ++ e) buffer
  | FetchResult.ok events :: rest, buffer =>
      let buffer := processBatch buffer events
      match scanBuffer buffer with
      | some (barcode, remaining) => ReadOutcome.ok barcode remaining rest
      | none => read rest buffer

/-- A key press event (value 1). -/
def press (k : Key) : InputEvent :=
  { event_type := EventType.KEY, code := k, value := 1 }

/-- A key release event (value 0). -/
def release (k : Key) : InputEvent :=
  { event_type := EventType.KEY, code := k, value := 0 }

/-- A key-repeat event (value 2). -/
def repeatEv (k : Key) : InputEvent :=
  { event_type := EventType.KEY, code := k, value := 2 }

/-! ### Helper lemmas about the buffer scan -/

/-- Unfolding equation for `read` on a successful fetch. -/
lemma read_ok_cons (events : List InputEvent) (rest : List FetchResult) (buffer : List Char) :
    read (FetchResult.ok events :: rest) buffer =
      match scanBuffer (processBatch buffer events) with
      | some (barcode, remaining) => ReadOutcome.ok barcode remaining rest
      | none => read rest (processBatch buffer events) := rfl

/-- A buffer scans to `none` exactly when it holds no newline. -/
lemma scanBuffer_eq_none_iff (buffer : List Char) :
    scanBuffer buffer = none ↔ '\n' ∉ buffer := by
  unfold scanBuffer
  constructor
  · intro h hm
    match hfi : buffer.findIdx? (fun c => c = '\n') with
    | some i => rw [hfi] at h; simp at h
    | none =>
      rw [List.findIdx?_eq_none_iff] at hfi
      have := hfi '\n' hm
      simp at this
  · intro hm
    have hfi : buffer.findIdx? (fun c => c = '\n') = none := by
      rw [List.findIdx?_eq_none_iff]
      intro x hx
      simp only [decide_eq_false_iff_not]
      rintro rfl
      exact hm hx
    rw [hfi]

/-- When the first newline sits at index `i`, the scan yields the prefix
before it and the suffix after it. -/
lemma scanBuffer_of_findIdx (buffer : List Char) (i : Nat)
    (hfi : buffer.findIdx? (fun c => c = '\n') = some i) :
    scanBuffer buffer = some (buffer.take i, buffer.drop (i + 1)) := by
  obtain ⟨hlen, hp, -⟩ := List.findIdx?_eq_some_iff_getElem.mp hfi
  have hnl : buffer[i] = '\n' := by simpa using hp
  have htake : buffer.take (i + 1) = buffer.take i ++ ['\n'] := by
    rw [List.take_succ]
    have : buffer[i]? = some '\n' := by simp [hlen, hnl]
    rw [this]
    rfl
  unfold scanBuffer
  rw [hfi]
  simp [htake]

/-- The prefix before the first newline holds no newline. -/
lemma newline_not_mem_take_findIdx (buffer : List Char) (i : Nat)
    (hfi : buffer.findIdx? (fun c => c = '\n') = some i) :
    '\n' ∉ buffer.take i := by
  obtain ⟨hlen, -, hfirst⟩ := List.findIdx?_eq_some_iff_getElem.mp hfi
  intro hm
  rw [List.mem_iff_getElem?] at hm
  obtain ⟨j, hj⟩ := hm
  have hjlt : j < i := by
    by_contra hc
    push_neg at hc
    have : (buffer.take i)[j]? = none := by
      apply List.getElem?_eq_none
      exact le_trans (by simp) hc
    rw [this] at hj
    exact Option.noConfusion hj
  rw [List.getElem?_take_of_lt hjlt] at hj
  obtain ⟨hjl, hje⟩ := List.getElem?_eq_some_iff.mp hj
  have := hfirst j hjlt
  simp [hje] at this

/-- Conversely, a newline at index `i` with none before it is where the
scan's search lands. -/
lemma findIdx?_newline_of_first (buffer : List Char) (i : Nat)
    (h1 : buffer[i]? = some '\n') (h2 : '\n' ∉ buffer.take i) :
    buffer.findIdx? (fun c => c = '\n') = some i := by
  obtain ⟨hlen, hget⟩ := List.getElem?_eq_some_iff.mp h1
  rw [List.findIdx?_eq_some_iff_getElem]
  refine ⟨hlen, by simp [hget], ?_⟩
  intro j hj
  simp only [decide_eq_true_eq]
  intro he
  apply h2
  rw [List.mem_iff_getElem?]
  refine ⟨j, ?_⟩
  rw [List.getElem?_take_of_lt hj, List.getElem?_eq_some_iff]
  exact ⟨Nat.lt_trans hj hlen, he⟩

/-! ### Claim theorems -/

/-- The spec's digit row: each digit key with its unshifted digit and its
shifted symbol, `'1'..'9','0'` against the `!@#$%^&*()` row. -/
def specDigitRow : List (Key × Char × Char) :=
  [(Key.KEY_1, '1', '!'), (Key.KEY_2, '2', '@'), (Key.KEY_3, '3', '#'),
   (Key.KEY_4, '4', '$'), (Key.KEY_5, '5', '%'), (Key.KEY_6, '6', '^'),
   (Key.KEY_7, '7', '&'), (Key.KEY_8, '8', '*'), (Key.KEY_9, '9', '('),
   (Key.KEY_0, '0', ')')]

/-- The spec's letter rows: each letter key with its lowercase and uppercase
character. -/
def specLetterRow : List (Key × Char × Char) :=
  [(Key.KEY_A, 'a', 'A'), (Key.KEY_B, 'b', 'B'), (Key.KEY_C, 'c', 'C'),
   (Key.KEY_D, 'd', 'D'), (Key.KEY_E, 'e', 'E'), (Key.KEY_F, 'f', 'F'),
   (Key.KEY_G, 'g', 'G'), (Key.KEY_H, 'h', 'H'), (Key.KEY_I, 'i', 'I'),
   (Key.KEY_J, 'j', 'J'), (Key.KEY_K, 'k', 'K'), (Key.KEY_L, 'l', 'L'),
   (Key.KEY_M, 'm', 'M'), (Key.KEY_N, 'n', 'N'), (Key.KEY_O, 'o', 'O'),
   (Key.KEY_P, 'p', 'P'), (Key.KEY_Q, 'q', 'Q'), (Key.KEY_R, 'r', 'R'),
   (Key.KEY_S, 's', 'S'), (Key.KEY_T, 't', 'T'), (Key.KEY_U, 'u', 'U'),
   (Key.KEY_V, 'v', 'V'), (Key.KEY_W, 'w', 'W'), (Key.KEY_X, 'x', 'X'),
   (Key.KEY_Y, 'y', 'Y'), (Key.KEY_Z, 'z', 'Z')]

/-- C4: every digit key maps to its digit when the capital flag is false and
to the shifted symbol row when true; every letter key maps to its lowercase
letter when false and its uppercase form when true; and the effective-capital
flag is true when caps-lock alone is active with no shift, in which case a
letter press decodes to its uppercase form. -/
theorem key_mapper_digits_and_letters :
    (∀ q ∈ specDigitRow,
        key_to_str q.1 false = some q.2.1 ∧ key_to_str q.1 true = some q.2.2) ∧
    (∀ q ∈ specLetterRow,
        key_to_str q.1 false = some q.2.1 ∧ key_to_str q.1 true = some q.2.2 ∧
        q.2.1.isLower = true ∧ q.2.2 = q.2.1.toUpper) ∧
    effectiveCapital
      { left_shift_pressed := false, right_shift_pressed := false, capslock_on := true } = true ∧
    read [FetchResult.ok [press Key.KEY_CAPSLOCK, press Key.KEY_A, press Key.KEY_ENTER]] []
      = ReadOutcome.ok ['A'] [] [] := by
  exact ⟨by decide, by decide, rfl, rfl⟩

/-- Witness for C4 at the digit-1 key and the letter-b key. -/
theorem key_mapper_digits_and_letters_witness :
    (key_to_str Key.KEY_1 false = some '1' ∧ key_to_str Key.KEY_1 true = some '!') ∧
    (key_to_str Key.KEY_B false = some 'b' ∧ key_to_str Key.KEY_B true = some 'B' ∧
      ('b' : Char).isLower = true ∧ ('B' : Char) = ('b' : Char).toUpper) :=
  ⟨key_mapper_digits_and_letters.1 (Key.KEY_1, '1', '!') (List.Mem.head _),
   key_mapper_digits_and_letters.2.1 (Key.KEY_B, 'b', 'B')
     (List.Mem.tail _ (List.Mem.head _))⟩

/-- C5: the enter and keypad-enter keys map to the newline terminator for
either value of the capital flag, while the shift keys, the caps-lock key
and every key outside the recognized table map to nothing for either flag. -/
theorem key_mapper_terminator_and_unmapped :
    (∀ b : Bool,
      key_to_str Key.KEY_ENTER b = some '\n' ∧
      key_to_str Key.KEY_KPENTER b = some '\n' ∧
      key_to_str Key.KEY_LEFTSHIFT b = none ∧
      key_to_str Key.KEY_RIGHTSHIFT b = none ∧
      key_to_str Key.KEY_CAPSLOCK b = none) ∧
    (∀ (n : Nat) (b : Bool), key_to_str (Key.KEY_OTHER n) b = none) := by
  exact ⟨fun b => by cases b <;> exact ⟨rfl, rfl, rfl, rfl, rfl⟩, fun n b => rfl⟩

/-- C6: an event whose value is not 1 (a press) never appends a character to
the line buffer, whatever key it carries. -/
theorem non_press_appends_nothing (s : ModState × List Char) (event : InputEvent)
    (h : event.value ≠ 1) : (processEvent s event).2 = s.2 := by
  unfold processEvent
  by_cases ht : event.event_type = EventType.KEY
  · simp [ht, h]
  · simp [ht]

/-- Witness for C6 at a concrete release event. -/
theorem non_press_appends_nothing_witness :
    (release Key.KEY_A).value ≠ 1 ∧
    (processEvent (initMod, ['h']) (release Key.KEY_A)).2 = ['h'] :=
  ⟨by decide, non_press_appends_nothing (initMod, ['h']) (release Key.KEY_A) (by decide)⟩

/-- C8: a fetch failure is returned to the caller at once as a device error,
with no retry, and the buffer accumulated so far is left unchanged; the
retained buffer is then still available to a later successful call. -/
theorem device_error_propagates (msg : String) (rest : List FetchResult) (buffer : List Char) :
    read (FetchResult.err msg :: rest) buffer
      = ReadOutcome.fail ("Failed to fetch events from input device: " ++ msg) buffer ∧
    read (FetchResult.ok [] :: rest) ['h', 'i', '\n'] = ReadOutcome.ok ['h', 'i'] [] rest := by
  exact ⟨rfl, rfl⟩

/-- C1 counterexample: a left-shift press delivered in its own batch has no
effect on the next batch — the same Decoder then maps the following press of
the letter key to lowercase, where the claim demands uppercase. -/
theorem modifier_state_not_persistent_cx :
    read [FetchResult.ok [press Key.KEY_LEFTSHIFT],
          FetchResult.ok [press Key.KEY_A, press Key.KEY_ENTER]] []
      = ReadOutcome.ok ['a'] [] [] ∧ ('a' : Char) ≠ 'A' :=
  ⟨rfl, by decide⟩

/-- C1 amended: modifier state is local to one batch.  The shift and
caps-lock flags restart from false for every batch, so a batch holding only
a modifier press is a no-op for all later processing, while within a single
batch a shift press does capitalize the key presses that follow it. -/
theorem modifier_state_per_batch (src : List FetchResult) (buffer : List Char)
    (h : '\n' ∉ buffer) :
    read (FetchResult.ok [press Key.KEY_LEFTSHIFT] :: src) buffer = read src buffer ∧
    read (FetchResult.ok [press Key.KEY_RIGHTSHIFT] :: src) buffer = read src buffer ∧
    read (FetchResult.ok [press Key.KEY_CAPSLOCK] :: src) buffer = read src buffer ∧
    processBatch buffer [press Key.KEY_LEFTSHIFT, press Key.KEY_A] = buffer ++ ['A'] := by
  have hnone := (scanBuffer_eq_none_iff buffer).mpr h
  have step : ∀ es : List InputEvent, processBatch buffer es = buffer →
      read (FetchResult.ok es :: src) buffer = read src buffer := by
    intro es he
    rw [read_ok_cons, he, hnone]
  exact ⟨step _ rfl, step _ rfl, step _ rfl, rfl⟩

/-- Witness for C1's amended theorem on a concrete buffer and source. -/
theorem modifier_state_per_batch_witness :
    read [FetchResult.ok [press Key.KEY_LEFTSHIFT]] ['z'] = read [] ['z'] ∧
    read [FetchResult.ok [press Key.KEY_RIGHTSHIFT]] ['z'] = read [] ['z'] ∧
    read [FetchResult.ok [press Key.KEY_CAPSLOCK]] ['z'] = read [] ['z'] ∧
    processBatch ['z'] [press Key.KEY_LEFTSHIFT, press Key.KEY_A] = ['z'] ++ ['A'] :=
  modifier_state_per_batch [] ['z'] (by decide)

/-- C2 counterexample: after the first call returns "x" with leftover
buffer "y\n", a second call with no further fetch available from the source
blocks instead of returning "y" — the leftover alone does not complete a
call. -/
theorem leftover_requires_fetch_cx :
    read [FetchResult.ok [press Key.KEY_X, press Key.KEY_ENTER,
                          press Key.KEY_Y, press Key.KEY_ENTER]] []
      = ReadOutcome.ok ['x'] ['y', '\n'] [] ∧
    read [] ['y', '\n'] = ReadOutcome.blocked ['y', '\n'] :=
  ⟨rfl, rfl⟩

/-- C2 amended: the first call returns "x" and preserves the leftover
"y\n" in the buffer; the second call then returns "y" without needing any
further key events, but only after one more successful fetch (an empty
batch suffices), because the buffer is scanned only after a fetch. -/
theorem leftover_preserved_for_next_call :
    read [FetchResult.ok [press Key.KEY_X, press Key.KEY_ENTER,
                          press Key.KEY_Y, press Key.KEY_ENTER]] []
      = ReadOutcome.ok ['x'] ['y', '\n'] [] ∧
    ∀ rest : List FetchResult,
      read (FetchResult.ok [] :: rest) ['y', '\n'] = ReadOutcome.ok ['y'] [] rest := by
  exact ⟨rfl, fun rest => rfl⟩

/-- C7 counterexample: a key-repeat event (value 2) on a held left shift
sets the tracked shift state to false, so a following letter press in the
same batch maps to lowercase; the claim demands that the repeat leave the
shift state active. -/
theorem repeat_event_not_neutral_cx :
    (processEvent
        ({ left_shift_pressed := true, right_shift_pressed := false, capslock_on := false }, [])
        (repeatEv Key.KEY_LEFTSHIFT)).1.left_shift_pressed = false ∧
    read [FetchResult.ok [press Key.KEY_LEFTSHIFT, repeatEv Key.KEY_LEFTSHIFT,
                          press Key.KEY_A, press Key.KEY_ENTER]] []
      = ReadOutcome.ok ['a'] [] [] ∧ ('a' : Char) ≠ 'A' :=
  ⟨rfl, rfl, by decide⟩

/-- C7 amended: an event whose value is neither 1 nor 0 emits no character,
but it is not neutral for modifier tracking: on a modifier key it stores
`value == 1`, i.e. false, so a key-repeat on a held shift or caps-lock key
deactivates the tracked modifier state. -/
theorem repeat_event_behavior (ms : ModState) (buffer : List Char) (k : Key) (v : Int)
    (h0 : v ≠ 0) (h1 : v ≠ 1) :
    (processEvent (ms, buffer) { event_type := EventType.KEY, code := k, value := v }).2
      = buffer ∧
    (processEvent (ms, buffer)
        { event_type := EventType.KEY, code := Key.KEY_LEFTSHIFT, value := v
        }).1.left_shift_pressed = false ∧
    (processEvent (ms, buffer)
        { event_type := EventType.KEY, code := Key.KEY_RIGHTSHIFT, value := v
        }).1.right_shift_pressed = false ∧
    (processEvent (ms, buffer)
        { event_type := EventType.KEY, code := Key.KEY_CAPSLOCK, value := v
        }).1.capslock_on = false := by
  refine ⟨?_, ?_, ?_, ?_⟩ <;> simp [processEvent, h1]

/-- Witness for C7's amended theorem at a concrete repeat event (value 2). -/
theorem repeat_event_behavior_witness :
    (processEvent (initMod, ['q'])
        { event_type := EventType.KEY, code := Key.KEY_A, value := 2 }).2 = ['q'] ∧
    (processEvent (initMod, ['q'])
        { event_type := EventType.KEY, code := Key.KEY_LEFTSHIFT, value := 2
        }).1.left_shift_pressed = false ∧
    (processEvent (initMod, ['q'])
        { event_type := EventType.KEY, code := Key.KEY_RIGHTSHIFT, value := 2
        }).1.right_shift_pressed = false ∧
    (processEvent (initMod, ['q'])
        { event_type := EventType.KEY, code := Key.KEY_CAPSLOCK, value := 2
        }).1.capslock_on = false :=
  repeat_event_behavior initMod ['q'] Key.KEY_A 2 (by decide) (by decide)

/-- C9 counterexample: a batch carrying two terminators leaves the second
one in the buffer when the call returns — the post-return buffer "d\n"
does contain a newline, violating the claimed invariant. -/
theorem buffer_newline_invariant_cx :
    read [FetchResult.ok [press Key.KEY_D, press Key.KEY_ENTER,
                          press Key.KEY_E, press Key.KEY_ENTER]] []
      = ReadOutcome.ok ['d'] ['e', '\n'] [] ∧ ('\n' : Char) ∈ ['e', '\n'] :=
  ⟨rfl, by decide⟩

/-- C9 amended: the extracted barcode itself never contains a terminator,
and whenever the post-batch scan finds no terminator — so the call keeps
waiting for further events — the buffer holds no newline; but the buffer
retained after a call returns may still contain a newline (when one batch
carried two terminators), to be extracted by a later call. -/
theorem buffer_newline_amended (buffer barcode remaining : List Char) :
    (scanBuffer buffer = some (barcode, remaining) → '\n' ∉ barcode) ∧
    (scanBuffer buffer = none → '\n' ∉ buffer) := by
  constructor
  · intro h
    match hfi : buffer.findIdx? (fun c => c = '\n') with
    | none =>
      unfold scanBuffer at h
      rw [hfi] at h
      exact Option.noConfusion h
    | some i =>
      have heq := scanBuffer_of_findIdx buffer i hfi
      rw [h, Option.some_inj] at heq
      injection heq with hb hr
      rw [hb]
      exact newline_not_mem_take_findIdx buffer i hfi
  · intro h
    exact (scanBuffer_eq_none_iff buffer).mp h

/-- Witness for C9's amended theorem at concrete buffers. -/
theorem buffer_newline_amended_witness :
    ('\n' : Char) ∉ (['d'] : List Char) ∧ ('\n' : Char) ∉ (['e'] : List Char) :=
  ⟨(buffer_newline_amended ['d', '\n'] ['d'] []).1 rfl,
   (buffer_newline_amended ['e'] [] []).2 rfl⟩

/-- C10: when the effective-capital flag is true — in particular from
caps-lock alone, no shift — the mapper picks the shifted table entry for
every mapped key, not only letters: the digit-1 key yields the exclamation
mark, the apostrophe key yields the double quote, and a caps-lock press
followed by the minus key within one batch decodes to the underscore. -/
theorem capslock_selects_shifted_entry :
    effectiveCapital
      { left_shift_pressed := false, right_shift_pressed := false, capslock_on := true } = true ∧
    (∀ (k : Key) (p : Char × Char), keyPair k = some p → key_to_str k true = some p.2) ∧
    key_to_str Key.KEY_1 true = some '!' ∧
    key_to_str Key.KEY_APOSTROPHE true = some '"' ∧
    read [FetchResult.ok [press Key.KEY_CAPSLOCK, press Key.KEY_MINUS, press Key.KEY_ENTER]] []
      = ReadOutcome.ok ['_'] [] [] := by
  refine ⟨rfl, ?_, rfl, rfl, rfl⟩
  intro k p hp
  unfold key_to_str
  rw [hp]
  rfl

/-- Witness for C10 instantiating the universally quantified table clause. -/
theorem capslock_selects_shifted_entry_witness :
    key_to_str Key.KEY_2 true = some ('2', '@').2 :=
  capslock_selects_shifted_entry.2.1 Key.KEY_2 ('2', '@') rfl

/-- C3: when the first newline of the buffer sits at index i (a newline at
i with none before it), the scan returns exactly the characters before i as
the barcode and removes everything through the newline, keeping the rest in
order, and a `read` call then returns that barcode with that remainder; when
the buffer holds no newline, the scan yields nothing and a batch with no
events leaves the buffer unchanged, the call continuing to wait. -/
theorem scan_extracts_first_terminator (buffer : List Char) :
    (∀ i : Nat, buffer[i]? = some '\n' → '\n' ∉ buffer.take i →
      scanBuffer buffer = some (buffer.take i, buffer.drop (i + 1)) ∧
      ∀ rest : List FetchResult,
        read (FetchResult.ok [] :: rest) buffer
          = ReadOutcome.ok (buffer.take i) (buffer.drop (i + 1)) rest) ∧
    ('\n' ∉ buffer →
      scanBuffer buffer = none ∧
      ∀ rest : List FetchResult,
        read (FetchResult.ok [] :: rest) buffer = read rest buffer) := by
  constructor
  · intro i h1 h2
    have hfi := findIdx?_newline_of_first buffer i h1 h2
    have hscan := scanBuffer_of_findIdx buffer i hfi
    refine ⟨hscan, ?_⟩
    intro rest
    rw [read_ok_cons]
    have hpb : processBatch buffer [] = buffer := rfl
    rw [hpb, hscan]
  · intro h
    have hnone := (scanBuffer_eq_none_iff buffer).mpr h
    refine ⟨hnone, ?_⟩
    intro rest
    rw [read_ok_cons]
    have hpb : processBatch buffer [] = buffer := rfl
    rw [hpb, hnone]

/-- Witness for C3 at a concrete buffer with its first newline at index 1,
and at a newline-free buffer. -/
theorem scan_extracts_first_terminator_witness :
    (scanBuffer ['w', '\n', 'v'] = some (['w', '\n', 'v'].take 1, ['w', '\n', 'v'].drop 2) ∧
      ∀ rest : List FetchResult,
        read (FetchResult.ok [] :: rest) ['w', '\n', 'v']
          = ReadOutcome.ok (['w', '\n', 'v'].take 1) (['w', '\n', 'v'].drop 2) rest) ∧
    (scanBuffer ['w'] = none ∧
      ∀ rest : List FetchResult,
        read (FetchResult.ok [] :: rest) ['w'] = read rest ['w']) :=
  ⟨(scan_extracts_first_terminator ['w', '\n', 'v']).1 1 (by decide) (by decide),
   (scan_extracts_first_terminator ['w']).2 (by decide)⟩
